import Mathlib

/-!
Verification development for the schema lint engine (skeema linter slice).

The Go sources embedded here:
- `src/linter/linter.go`: `Result`, `Merge`, `BadConfigResult`, `LintDir`,
  `ConfigError` (type `Annotation` in the source is named `Finding` here).
- `src/linter/config.go`: `Severity`, `Options`, `OptionsForDir`.
- `src/unnamed/part_000`: the detector registry `problems`, `noPKDetector`,
  `badCharsetDetector`, `badEngineDetector`, `problemExists`,
  `allProblemNames`, `isAllowed`.
- `src/unnamed/part_001`: `lintWalker`.

External collaborators (fs, workspace, mybase, tengo packages) are not part
of the source slice; they are modelled from the spec where noted.
-/

set_option autoImplicit false

namespace Skeema

/-- Severity represents different annotation severity levels
(`SeverityError = "error"`, `SeverityWarning = "warning"` in config.go). -/
inductive Severity where
  | error
  | warning
  deriving DecidableEq, Repr

/-- Modelled from the spec: the directory/config subsystem parses on-disk
configuration into typed values, among them regular expressions. A compiled
regular expression is modelled as its source text plus its matching
predicate on strings. -/
structure Regexp where
  source : String
  matchString : String → Bool

/-- Modelled from the spec: a regular-expression-valued configuration option
is either unset, malformed (an invalid pattern is a configuration error
carrying the compile-error text), or a valid compiled pattern. -/
inductive RegexSetting where
  | unset
  | invalid (msg : String)
  | valid (re : Regexp)

/-- Go errors relevant to the slice: `ConfigError` (a distinguished string
type in linter.go/config.go satisfying the error interface) versus any other
error value (e.g. results of `fmt.Errorf` or regexp compile errors). -/
inductive GoError where
  | configError (msg : String)
  | plainError (msg : String)
  deriving DecidableEq, Repr

/-- `Error()` for both kinds of Go error returns the message string. -/
def GoError.message : GoError → String
  | .configError m => m
  | .plainError m => m

/-- Modelled from the spec: the outcome of the file-rewrite collaborator on
one statement — bytes written, or a failure message. -/
inductive RewriteOutcome where
  | ok (bytes : Nat)
  | fail (msg : String)
  deriving DecidableEq, Repr

/-- Modelled from the spec: an `fs.Statement` as used by this slice — the
raw declared text split into body and suffix (`SplitTextBody` separates the
statement body from the trailing delimiter/whitespace noise), the file it
came from, and the outcome of asking the file-rewrite collaborator to
rewrite it. -/
structure Statement where
  file : String
  body : String
  suffix : String
  rewriteResult : RewriteOutcome
  deriving DecidableEq, Repr

/-- Modelled from the spec: `SplitTextBody` returns the statement body and
the trailing suffix (delimiter and whitespace). -/
def Statement.splitTextBody (s : Statement) : String × String :=
  (s.body, s.suffix)

/-- `Annotation` in linter.go: an error, warning, or notice from linting a
single SQL statement. -/
structure Finding where
  statement : Statement
  lineOffset : Int
  summary : String
  message : String
  deriving DecidableEq, Repr

/-- Modelled from the spec: a per-statement execution error reported by the
schema evaluator — a `(tableName, statement, error)` triple. -/
structure StatementError where
  tableName : String
  statement : Statement
  errMsg : String
  deriving DecidableEq, Repr

/-- Modelled from the spec: one table of the concrete (materialized) schema —
name, primary-key presence, character set, storage engine, and the canonical
re-rendered CREATE statement text. -/
structure Table where
  name : String
  primaryKey : Option Unit
  charSet : String
  engine : String
  createStatement : String
  deriving DecidableEq, Repr

/-- Modelled from the spec: the concrete schema produced by the evaluator. -/
structure TengoSchema where
  tables : List Table
  deriving DecidableEq, Repr

/-- Modelled from the spec: the outcome of `workspace.ExecLogicalSchema` for
one logical schema — either a hard error, or a concrete schema together with
an ordered list of per-statement execution errors. The evaluator is an
external collaborator, so its outcome is carried as data on the logical
schema. -/
inductive ExecOutcome where
  | fail (msg : String)
  | ok (schema : TengoSchema) (stmtErrors : List StatementError)

/-- Modelled from the spec: a logical schema — the per-table declared
statements (`CreateTables`, keyed by table name) plus the evaluator outcome
for this logical schema. -/
structure LogicalSchema where
  createTables : List (String × Statement)
  execResult : ExecOutcome

/-- Lookup in `CreateTables`. A Go map access on a missing key yields a nil
pointer; all inputs considered here have matching keys, and a missing key is
modelled as an empty default statement. -/
def LogicalSchema.findStatement (ls : LogicalSchema) (name : String) : Statement :=
  (ls.createTables.lookup name).getD ⟨"", "", "", .ok 0⟩

/-- Modelled from the spec: the configuration values this slice reads from a
directory, already parsed by the external config subsystem (`GetRegexp` for
the two ignore patterns, `GetSlice` for the comma-separated lists). -/
structure Config where
  ignoreTable : RegexSetting
  ignoreSchema : RegexSetting
  schemaNames : List String
  lintWarning : List String
  lintError : List String
  lintAllowedCharset : List String
  lintAllowedEngine : List String

/-- `dir.Config.GetRegexp(...)`: unset gives no pattern and no error, a
malformed pattern gives a (plain) compile error, a valid pattern gives the
compiled regexp. -/
def getRegexp : RegexSetting → Except GoError (Option Regexp)
  | .unset => .ok none
  | .invalid msg => .error (.plainError msg)
  | .valid re => .ok (some re)

/-- A directory as seen by `lintWalker` and `LintDir`: its configuration,
relative path, logical schemas, the outcome of the pre-lint setup performed
by `lintWalker` (instance connection and workspace option resolution, both
external collaborators; a failure of either is modelled as one optional
error), and its subdirectory listing (`dir.Subdirs()` returns subdirs, a
count of subdirs with configuration errors, and possibly a listing error). -/
inductive Dir where
  | mk (config : Config) (relPath : String) (logicalSchemas : List LogicalSchema)
      (setupError : Option GoError) (subdirsErr : Option String)
      (badCount : Nat) (subdirs : List Dir)

def Dir.config : Dir → Config
  | .mk c _ _ _ _ _ _ => c

def Dir.relPath : Dir → String
  | .mk _ p _ _ _ _ _ => p

def Dir.logicalSchemas : Dir → List LogicalSchema
  | .mk _ _ s _ _ _ _ => s

def Dir.setupError : Dir → Option GoError
  | .mk _ _ _ e _ _ _ => e

def Dir.subdirsErr : Dir → Option String
  | .mk _ _ _ _ e _ _ => e

def Dir.badCount : Dir → Nat
  | .mk _ _ _ _ _ n _ => n

def Dir.subdirs : Dir → List Dir
  | .mk _ _ _ _ _ _ d => d

/-- `Result` in linter.go: a combined set of linter annotations and/or Go
errors found when linting a directory and its subdirs. -/
structure Result where
  Errors : List Finding := []
  Warnings : List Finding := []
  FormatNotices : List Finding := []
  DebugLogs : List String := []
  Exceptions : List GoError := []
  deriving DecidableEq, Repr

/-- `Merge` in linter.go: combines other into r's value in-place, appending
each of the five sequences. -/
def Result.merge (r other : Result) : Result :=
  { Errors := r.Errors ++ other.Errors
    Warnings := r.Warnings ++ other.Warnings
    FormatNotices := r.FormatNotices ++ other.FormatNotices
    DebugLogs := r.DebugLogs ++ other.DebugLogs
    Exceptions := r.Exceptions ++ other.Exceptions }

/-- `BadConfigResult` in linter.go: a Result containing a single ConfigError
in the Exceptions field; a non-ConfigError is converted via its `Error()`
text. -/
def BadConfigResult (err : GoError) : Result :=
  match err with
  | .configError _ => { Exceptions := [err] }
  | .plainError m => { Exceptions := [GoError.configError m] }

/-- `Options` in config.go: parsed settings controlling linter behavior.
The Go `map[string]Severity` is modelled as an association list with
insert-replaces semantics. -/
structure Options where
  ProblemSeverity : List (String × Severity)
  AllowedCharSets : List String
  AllowedEngines : List String
  deriving Repr

/-- Insertion into the `ProblemSeverity` map: replace an existing binding
for the key, otherwise append a new one (Go map assignment). -/
def psInsert (m : List (String × Severity)) (k : String) (v : Severity) :
    List (String × Severity) :=
  if m.any (fun p => p.1 == k) then
    m.map (fun p => if p.1 == k then (k, v) else p)
  else
    m ++ [(k, v)]

/-- Lookup in the `ProblemSeverity` map. -/
def psLookup : List (String × Severity) → String → Option Severity
  | [], _ => none
  | (k, v) :: rest, k' => if k' = k then some v else psLookup rest k'

/-- `noPKDetector` in part_000: one finding per table without a primary
key. -/
def noPKDetector (schema : TengoSchema) (ls : LogicalSchema) (_ : Options) :
    List Finding :=
  (schema.tables.filter (fun t => t.primaryKey.isNone)).map (fun t =>
    { statement := ls.findStatement t.name
      lineOffset := 0
      summary := "No primary key"
      message := "Table " ++ t.name ++ " does not define a PRIMARY KEY" })

/-- Modelled from the spec: `strings.ToLower` from the Go standard library
(per-character lower-casing), used for rule names, charsets and engines. -/
def strToLower (s : String) : String := ⟨s.data.map Char.toLower⟩

/-- `isAllowed` in part_000: case-insensitive search for value in allowed. -/
def isAllowed (value : String) (allowed : List String) : Bool :=
  allowed.any (fun a => strToLower value == strToLower a)

/-- `badCharsetDetector` in part_000: one finding per table whose character
set is not in the charset allow-list. -/
def badCharsetDetector (schema : TengoSchema) (ls : LogicalSchema) (opts : Options) :
    List Finding :=
  (schema.tables.filter (fun t => !(isAllowed t.charSet opts.AllowedCharSets))).map (fun t =>
    { statement := ls.findStatement t.name
      lineOffset := 0
      summary := "Character set not permitted"
      message := "Table " ++ t.name ++ " is using character set " ++ t.charSet ++
        ", which is not in lint-allowed-charset" })

/-- `badEngineDetector` in part_000: one finding per table whose storage
engine is not in the engine allow-list. -/
def badEngineDetector (schema : TengoSchema) (ls : LogicalSchema) (opts : Options) :
    List Finding :=
  (schema.tables.filter (fun t => !(isAllowed t.engine opts.AllowedEngines))).map (fun t =>
    { statement := ls.findStatement t.name
      lineOffset := 0
      summary := "Storage engine not permitted"
      message := "Table " ++ t.name ++ " is using storage engine " ++ t.engine ++
        ", which is not in lint-allowed-engine" })

/-- The detector registry `problems` in part_000, keyed by rule name.
Go map iteration order is unspecified; the registry is modelled in its
registration order. -/
def problems : List (String × (TengoSchema → LogicalSchema → Options → List Finding)) :=
  [("no-pk", noPKDetector),
   ("bad-charset", badCharsetDetector),
   ("bad-engine", badEngineDetector)]

/-- `problemExists` in part_000. -/
def problemExists (name : String) : Bool :=
  (problems.lookup (strToLower name)).isSome

/-- `allProblemNames` in part_000. -/
def allProblemNames : List String :=
  problems.map (fun p => p.1)

/-- The configuration-error message produced by `OptionsForDir` for an
unknown rule name in the list for option `optName`. -/
def badRuleMsg (optName : String) : String :=
  "Option " ++ optName ++ " must be a comma-separated list including these values: " ++
    String.intercalate ", " allProblemNames

/-- One pass of `OptionsForDir` over a severity list: validate each name in
order, inserting the lower-cased name at the given severity; stop at the
first unknown name, returning the map built so far together with the
configuration error. -/
def resolveList (optName : String) (sev : Severity) :
    List String → List (String × Severity) → List (String × Severity) × Option GoError
  | [], m => (m, none)
  | v :: rest, m =>
    if problemExists v then
      resolveList optName sev rest (psInsert m (strToLower v) sev)
    else
      (m, some (.configError (badRuleMsg optName)))

/-- `OptionsForDir` in config.go: builds `Options` from the directory
configuration, resolving the warning list first and the error list second;
Go returns the (possibly partially populated) `Options` alongside any
error. -/
def OptionsForDir (cfg : Config) : Options × Option GoError :=
  let (m1, e1) := resolveList "lint-warning" Severity.warning cfg.lintWarning []
  match e1 with
  | some err =>
    ({ ProblemSeverity := m1
       AllowedCharSets := cfg.lintAllowedCharset
       AllowedEngines := cfg.lintAllowedEngine }, some err)
  | none =>
    let (m2, e2) := resolveList "lint-error" Severity.error cfg.lintError m1
    ({ ProblemSeverity := m2
       AllowedCharSets := cfg.lintAllowedCharset
       AllowedEngines := cfg.lintAllowedEngine }, e2)

/-- `ignoreTable != nil && ignoreTable.MatchString(s)` for an optional
pattern. -/
def regexpMatches : Option Regexp → String → Bool
  | some re, s => re.matchString s
  | none, _ => false

/-- The debug trace recorded when a table is skipped via `ignore-table`. -/
def skipTableMsg (tableName : String) (re : Regexp) : String :=
  "Skipping table " ++ tableName ++ " because ignore-table='" ++ re.source ++ "'"

/-- The debug trace recorded when a directory's schema is skipped via
`ignore-schema`. -/
def skipSchemaMsg (rel : String) (re : Regexp) : String :=
  "Skipping schema in " ++ rel ++ " because ignore-schema='" ++ re.source ++ "'"

/-- The exception recorded when the evaluator fails on a logical schema. -/
def execErrMsg (rel : String) (msg : String) : String :=
  "Skipping schema in " ++ rel ++ " due to error: " ++ msg

/-- The error finding emitted for a statement execution error (summary
"SQL statement returned an error", message the error text). -/
def stmtErrFinding (se : StatementError) : Finding :=
  { statement := se.statement
    lineOffset := 0
    summary := "SQL statement returned an error"
    message := se.errMsg }

/-- The statement-error loop of `LintDir` (linter.go lines 96-106): each
statement execution error either becomes a debug trace (its table name
matched by `ignore-table`) or an error finding. -/
def lintStmtErrors (ignoreTable : Option Regexp) :
    List StatementError → Result → Result
  | [], r => r
  | se :: rest, r =>
    lintStmtErrors ignoreTable rest
      (match ignoreTable with
       | some re =>
         if re.matchString se.tableName then
           { r with DebugLogs := r.DebugLogs ++ [skipTableMsg se.tableName re] }
         else
           { r with Errors := r.Errors ++ [stmtErrFinding se] }
       | none =>
         { r with Errors := r.Errors ++ [stmtErrFinding se] })

/-- The format notice emitted for a table whose canonical text differs from
its declared body: the message is the canonical text followed by the
declared statement's suffix. -/
def formatNotice (ls : LogicalSchema) (t : Table) : Finding :=
  { statement := ls.findStatement t.name
    lineOffset := 0
    summary := "SQL statement should be reformatted"
    message := t.createStatement ++ (ls.findStatement t.name).suffix }

/-- The table loop of `LintDir` (linter.go lines 107-120): each table either
becomes a debug trace (matches `ignore-table`), nothing (canonical text
equals declared body), or a format notice. -/
def lintTables (ignoreTable : Option Regexp) (ls : LogicalSchema) :
    List Table → Result → Result
  | [], r => r
  | t :: rest, r =>
    lintTables ignoreTable ls rest
      (match ignoreTable with
       | some re =>
         if re.matchString t.name then
           { r with DebugLogs := r.DebugLogs ++ [skipTableMsg t.name re] }
         else if t.createStatement = (ls.findStatement t.name).splitTextBody.1 then r
         else { r with FormatNotices := r.FormatNotices ++ [formatNotice ls t] }
       | none =>
         if t.createStatement = (ls.findStatement t.name).splitTextBody.1 then r
         else { r with FormatNotices := r.FormatNotices ++ [formatNotice ls t] })

/-- The body of `LintDir` processing one logical schema past the
ignore-schema check: evaluate it (a failure appends an exception and moves
on), then run the statement-error loop and the table loop. -/
def lintOneSchema (rel : String) (ignoreTable : Option Regexp) (ls : LogicalSchema)
    (r : Result) : Result :=
  match ls.execResult with
  | .fail msg =>
    { r with Exceptions := r.Exceptions ++ [GoError.plainError (execErrMsg rel msg)] }
  | .ok schema stmtErrors =>
    lintTables ignoreTable ls schema.tables (lintStmtErrors ignoreTable stmtErrors r)

/-- The loop of `LintDir` over the directory's logical schemas (linter.go
lines 74-121), with the per-iteration ignore-schema check and its early
return. -/
def lintSchemas (rel : String) (schemaNames : List String) (ignoreTable : Option Regexp)
    (ignoreSchema : Option Regexp) : List LogicalSchema → Result → Result
  | [], r => r
  | ls :: rest, r =>
    match ignoreSchema with
    | some re =>
      if schemaNames.any re.matchString then
        { r with DebugLogs := r.DebugLogs ++ [skipSchemaMsg rel re] }
      else
        lintSchemas rel schemaNames ignoreTable (some re) rest (lintOneSchema rel ignoreTable ls r)
    | none =>
      lintSchemas rel schemaNames ignoreTable none rest (lintOneSchema rel ignoreTable ls r)

/-- `LintDir` in linter.go: resolve the two ignore patterns (a malformed one
aborts with `BadConfigResult`), then process each logical schema. -/
def LintDir (d : Dir) : Result :=
  match getRegexp d.config.ignoreTable with
  | .error err => BadConfigResult err
  | .ok ignoreTable =>
    match getRegexp d.config.ignoreSchema with
    | .error err => BadConfigResult err
    | .ok ignoreSchema =>
      lintSchemas d.relPath d.config.schemaNames ignoreTable ignoreSchema d.logicalSchemas {}

/-- The rewrite-loop exceptions of `lintWalker` (part_001 lines 96-106):
for each format notice, the caller rewrites the declared statement in its
file; a rewrite failure appends an exception. -/
def rewriteExceptions (notices : List Finding) : List GoError :=
  notices.foldl (fun acc a =>
    match a.statement.rewriteResult with
    | .fail e => acc ++ [.plainError ("Unable to write to " ++ a.statement.file ++ ": " ++ e)]
    | .ok _ => acc) []

/-- Append a list of exceptions to a Result. -/
def addExcs (r : Result) (es : List GoError) : Result :=
  { r with Exceptions := r.Exceptions ++ es }

/-- The per-directory work of `lintWalker` before subdirectory handling:
`LintDir` followed by the format-notice rewrite loop. -/
def walkerLocal (d : Dir) : Result :=
  addExcs (LintDir d) (rewriteExceptions (LintDir d).FormatNotices)

/-- Exception text for a failed subdirectory listing. -/
def cannotListMsg (rel e : String) : String :=
  "Cannot list subdirs of " ++ rel ++ ": " ++ e

/-- Exception text recorded when the depth budget is exhausted. -/
def depthMsg (rel : String) : String :=
  "Not walking subdirs of " ++ rel ++ ": max depth reached"

/-- Exception text counting subdirectories excluded for their own
configuration errors. -/
def badSubdirsMsg (n : Nat) (rel : String) : String :=
  "Ignoring " ++ toString n ++ " subdirs of " ++ rel ++ " with configuration errors"

/-- The `badCount > 0` exception step of `lintWalker`. -/
def withBadCount (rel : String) (bad : Nat) (r : Result) : Result :=
  if 0 < bad then addExcs r [.plainError (badSubdirsMsg bad rel)] else r

mutual
/-- `lintWalker` in part_001: connect/resolve workspace options (a failure
is a `BadConfigResult`), lint the current directory (including the rewrite
loop), then handle subdirectories — a listing failure or an exhausted depth
budget each append one exception, otherwise recurse into each subdirectory
with `maxDepth - 1` and merge the child results in listing order. -/
def lintWalker : Dir → Int → Result
  | d, maxDepth =>
    match d.setupError with
    | some e => BadConfigResult e
    | none =>
      match d.subdirsErr with
      | some e => addExcs (walkerLocal d) [.plainError (cannotListMsg d.relPath e)]
      | none =>
        if 0 < d.subdirs.length ∧ maxDepth ≤ 0 then
          addExcs (walkerLocal d) [.plainError (depthMsg d.relPath)]
        else
          mergeWalk d.subdirs (maxDepth - 1)
            (withBadCount d.relPath d.badCount (walkerLocal d))
termination_by d _ => sizeOf d
decreasing_by cases d; simp [Dir.subdirs]

/-- The `for _, sub := range subdirs` loop of `lintWalker`: merge each
child's walk result into the accumulator in listing order. -/
def mergeWalk : List Dir → Int → Result → Result
  | [], _, acc => acc
  | s :: rest, md, acc => mergeWalk rest md (acc.merge (lintWalker s md))
termination_by l _ _ => sizeOf l
decreasing_by all_goals (simp; try omega)
end

mutual
/-- The depth-unbounded variant of `lintWalker`: identical except that the
depth budget is never exhausted, so every subdirectory is visited. Used to
state that a sufficiently large `maxDepth` visits the whole tree. -/
def fullLint (d : Dir) : Result :=
  match d.setupError with
    | some e => BadConfigResult e
    | none =>
      match d.subdirsErr with
      | some e => addExcs (walkerLocal d) [.plainError (cannotListMsg d.relPath e)]
      | none =>
        mergeFull d.subdirs (withBadCount d.relPath d.badCount (walkerLocal d))
termination_by sizeOf d
decreasing_by cases d; simp [Dir.subdirs]

/-- Merge each child's depth-unbounded result in listing order. -/
def mergeFull : List Dir → Result → Result
  | [], acc => acc
  | s :: rest, acc => mergeFull rest (acc.merge (fullLint s))
termination_by l _ => sizeOf l
decreasing_by all_goals (simp; try omega)
end

mutual
/-- Height of a directory tree: 1 for a leaf, 1 + the tallest subtree
otherwise. -/
def Dir.height (d : Dir) : Nat :=
  1 + heightList d.subdirs
termination_by sizeOf d
decreasing_by cases d; simp [Dir.subdirs]

/-- The tallest height among a list of directory trees. -/
def heightList : List Dir → Nat
  | [] => 0
  | s :: rest => max (Dir.height s) (heightList rest)
termination_by l => sizeOf l
decreasing_by all_goals (simp; try omega)
end

/-! ### Concrete inputs used by witnesses -/

/-- A baseline configuration with everything unset/empty. -/
def cfgBase : Config :=
  { ignoreTable := .unset
    ignoreSchema := .unset
    schemaNames := []
    lintWarning := []
    lintError := []
    lintAllowedCharset := []
    lintAllowedEngine := [] }

def c4dirA : Dir :=
  .mk { cfgBase with ignoreTable := .invalid "bad" } "." [] none none 0 []

def c4dirB : Dir :=
  .mk { cfgBase with ignoreSchema := .invalid "worse" } "." [] none none 0 []

def stmtT1 : Statement := ⟨"t1.sql", "CREATE TABLE t1 (a int)", ";\n", .ok 0⟩

/-- A logical schema that, if processed, would yield a format notice (its
canonical rendering differs from the declared body). -/
def lsProd : LogicalSchema :=
  { createTables := [("t1", stmtT1)]
    execResult := .ok ⟨[⟨"t1", none, "latin1", "InnoDB", "CREATE TABLE t1 (a bigint)"⟩]⟩ [] }

def reC2 : Regexp := ⟨"^prod", fun s => s == "production"⟩

def c2dir : Dir :=
  .mk { cfgBase with ignoreSchema := .valid reC2, schemaNames := ["production", "staging"] }
    "mydir" [lsProd, lsProd] none none 0 []

def c1table : Table := ⟨"users", none, "latin1", "InnoDB", "CREATE TABLE users (id int)"⟩

def c1stmt : Statement := ⟨"users.sql", "CREATE TABLE users (id int)", ";\n", .ok 0⟩

def c1schema : TengoSchema := ⟨[c1table]⟩

def c1ls : LogicalSchema := ⟨[("users", c1stmt)], .ok c1schema []⟩

def c1cfg : Config := { cfgBase with lintError := ["no-pk"] }

def c1dir : Dir := .mk c1cfg "." [c1ls] none none 0 []

def c3table : Table := ⟨"t", some (), "latin1", "InnoDB", "CREATE TABLE t (a int2)"⟩

def c3stmt : Statement := ⟨"t.sql", "CREATE TABLE t (a int)", ";\n", .ok 0⟩

def c3ls : LogicalSchema := ⟨[("t", c3stmt)], .ok ⟨[c3table]⟩ []⟩

def c3dir : Dir := .mk cfgBase "db" [c3ls] none none 0 []

def c3wtableA : Table := ⟨"a", some (), "latin1", "InnoDB", "CREATE TABLE a (x int)"⟩

def c3wstmtA : Statement := ⟨"a.sql", "CREATE TABLE a (x int)", ";\n", .ok 0⟩

def c3wtableB : Table := ⟨"b", some (), "latin1", "InnoDB", "CREATE TABLE b (y bigint)"⟩

def c3wstmtB : Statement := ⟨"b.sql", "CREATE TABLE b (y int)", ";\n", .ok 0⟩

def c3wschema : TengoSchema := ⟨[c3wtableA, c3wtableB]⟩

def c3wls : LogicalSchema := ⟨[("a", c3wstmtA), ("b", c3wstmtB)], .ok c3wschema []⟩

def c3wdir : Dir := .mk cfgBase "wdb" [c3wls] none none 0 []

def c5cfg : Config :=
  { cfgBase with lintWarning := ["No-PK"], lintError := ["no-pk"] }

def c7cfg : Config :=
  { cfgBase with lintWarning := ["nonsense"] }

def c9cfg : Config :=
  { cfgBase with
    lintWarning := ["bad-charset"]
    lintError := ["no-pk", "oops"]
    lintAllowedCharset := ["latin1", "utf8mb4"]
    lintAllowedEngine := ["innodb"] }

def c8leaf1 : Dir := .mk cfgBase "root/mid/leaf1" [] none none 0 []

def c8leaf2 : Dir := .mk cfgBase "root/leaf2" [] none none 0 []

def c8mid : Dir := .mk cfgBase "root/mid" [] none none 0 [c8leaf1]

/-- A directory tree three levels deep (root → mid → leaf1, root → leaf2). -/
def c8tree : Dir := .mk cfgBase "root" [] none none 0 [c8mid, c8leaf2]

def c10schema : TengoSchema :=
  ⟨[⟨"a", none, "latin1", "InnoDB", "x"⟩, ⟨"b", some (), "utf8", "MyISAM", "y"⟩]⟩

def c10ls : LogicalSchema := ⟨[], .ok c10schema []⟩

def c10opts : Options := ⟨[], [], []⟩

/-! ### Lemmas about the `ProblemSeverity` map and `OptionsForDir` -/

theorem psLookup_map_replace (k : String) (v : Severity) (m : List (String × Severity))
    (k' : String) :
    psLookup (m.map (fun p => if p.1 = k then (k, v) else p)) k' =
      if k' = k then (psLookup m k).map (fun _ => v) else psLookup m k' := by
  induction m with
  | nil => simp [psLookup]
  | cons hd tl ih =>
    obtain ⟨hk, hv⟩ := hd
    simp only [List.map_cons]
    by_cases h1 : hk = k
    · rw [show (if hk = k then (k, v) else (hk, hv)) = (k, v) by simp [h1]]
      by_cases h2 : k' = k
      · simp [psLookup, h1, h2]
      · simp [psLookup, h1, h2, ih]
    · have h1s : ¬k = hk := fun hh => h1 hh.symm
      rw [show (if hk = k then (k, v) else (hk, hv)) = (hk, hv) by simp [h1]]
      by_cases h2 : k' = hk
      · subst h2
        simp [psLookup, h1, ih]
      · simp [psLookup, h2, h1s, ih]

theorem psLookup_isSome_eq_any (m : List (String × Severity)) (k : String) :
    (psLookup m k).isSome = m.any (fun p => p.1 == k) := by
  induction m with
  | nil => simp [psLookup]
  | cons hd tl ih =>
    obtain ⟨hk, hv⟩ := hd
    by_cases h : k = hk
    · simp [psLookup, h, ih]
    · have hs : ¬hk = k := fun hh => h hh.symm
      simp [psLookup, h, hs, ih]

theorem psLookup_append (m1 m2 : List (String × Severity)) (k : String) :
    psLookup (m1 ++ m2) k = (psLookup m1 k).or (psLookup m2 k) := by
  induction m1 with
  | nil => simp [psLookup]
  | cons hd tl ih =>
    obtain ⟨hk, hv⟩ := hd
    by_cases h : k = hk <;> simp [psLookup, h, ih]

theorem psLookup_psInsert (m : List (String × Severity)) (k : String) (v : Severity)
    (k' : String) :
    psLookup (psInsert m k v) k' = if k' = k then some v else psLookup m k' := by
  unfold psInsert
  have hfe : (fun p : String × Severity => if p.1 == k then (k, v) else p) =
      (fun p => if p.1 = k then (k, v) else p) :=
    funext fun p => by by_cases hp : p.1 = k <;> simp [hp]
  by_cases hany : m.any (fun p => p.1 == k)
  · rw [if_pos hany, hfe, psLookup_map_replace]
    by_cases h : k' = k
    · have hsome : (psLookup m k).isSome := by rw [psLookup_isSome_eq_any]; exact hany
      cases hm : psLookup m k with
      | none => rw [hm] at hsome; simp at hsome
      | some w => simp [h, hm]
    · simp [h]
  · rw [if_neg hany, psLookup_append]
    have hnone : psLookup m k = none := by
      have hiff := psLookup_isSome_eq_any m k
      rw [Bool.eq_false_iff.mpr hany] at hiff
      exact Option.not_isSome_iff_eq_none.mp (by simp [hiff])
    by_cases h : k' = k
    · simp [psLookup, h, hnone]
    · cases hm : psLookup m k' <;> simp [psLookup, h, hm]

theorem resolveList_all_valid (optName : String) (sev : Severity) (l : List String)
    (m : List (String × Severity)) (h : ∀ v ∈ l, problemExists v = true) :
    resolveList optName sev l m =
      (l.foldl (fun m v => psInsert m (strToLower v) sev) m, none) := by
  induction l generalizing m with
  | nil => rfl
  | cons v l ih =>
    have hv := h v (by simp)
    simp only [resolveList, hv, if_true, List.foldl_cons]
    exact ih _ (fun w hw => h w (by simp [hw]))

theorem foldl_psInsert_psLookup (sev : Severity) (l : List String)
    (m : List (String × Severity)) (k : String) :
    psLookup (l.foldl (fun m v => psInsert m (strToLower v) sev) m) k =
      if l.any (fun v => strToLower v == k) then some sev else psLookup m k := by
  induction l generalizing m with
  | nil => simp
  | cons v l ih =>
    rw [List.foldl_cons, ih]
    by_cases h : l.any (fun v => strToLower v == k)
    · simp [h]
    · by_cases h2 : strToLower v = k
      · simp [h, h2, psLookup_psInsert]
      · have h2s : ¬k = strToLower v := fun hh => h2 hh.symm
        simp [h, h2, h2s, psLookup_psInsert]

theorem resolveList_first_invalid (optName : String) (sev : Severity) (pre : List String)
    (bad : String) (rest : List String) (m : List (String × Severity))
    (hpre : ∀ v ∈ pre, problemExists v = true) (hbad : problemExists bad = false) :
    resolveList optName sev (pre ++ bad :: rest) m =
      (pre.foldl (fun m v => psInsert m (strToLower v) sev) m,
       some (GoError.configError (badRuleMsg optName))) := by
  induction pre generalizing m with
  | nil => simp [resolveList, hbad]
  | cons v pre ih =>
    have hv := hpre v (by simp)
    simp only [List.cons_append, resolveList, hv, if_true, List.foldl_cons]
    exact ih _ (fun w hw => hpre w (by simp [hw]))

theorem resolveList_has_invalid (optName : String) (sev : Severity) (l : List String)
    (m : List (String × Severity)) (h : ∃ v ∈ l, problemExists v = false) :
    (resolveList optName sev l m).2 = some (GoError.configError (badRuleMsg optName)) := by
  induction l generalizing m with
  | nil => simp at h
  | cons v l ih =>
    by_cases hv : problemExists v
    · simp only [resolveList, hv, if_true]
      apply ih
      obtain ⟨w, hw, hwbad⟩ := h
      rcases List.mem_cons.mp hw with hw2 | hw2
      · rw [hw2] at hwbad; rw [hv] at hwbad; cases hwbad
      · exact ⟨w, hw2, hwbad⟩
    · simp [resolveList, hv]

/-! ### Lemmas about the per-schema loops of `LintDir` -/

theorem lintStmtErrors_parts (it : Option Regexp) (ses : List StatementError) (r : Result) :
    (lintStmtErrors it ses r).Warnings = r.Warnings ∧
    (lintStmtErrors it ses r).FormatNotices = r.FormatNotices ∧
    (lintStmtErrors it ses r).Exceptions = r.Exceptions ∧
    (lintStmtErrors it ses r).Errors =
      r.Errors ++ (ses.filter (fun se => !(regexpMatches it se.tableName))).map stmtErrFinding := by
  induction ses generalizing r with
  | nil => simp [lintStmtErrors]
  | cons se ses ih =>
    cases it with
    | none => simp [lintStmtErrors, regexpMatches, ih]
    | some re =>
      by_cases hm : re.matchString se.tableName <;>
        simp [lintStmtErrors, regexpMatches, hm, ih]

theorem lintTables_parts (it : Option Regexp) (ls : LogicalSchema) (tables : List Table)
    (r : Result) :
    (lintTables it ls tables r).Errors = r.Errors ∧
    (lintTables it ls tables r).Warnings = r.Warnings ∧
    (lintTables it ls tables r).Exceptions = r.Exceptions ∧
    (lintTables it ls tables r).FormatNotices =
      r.FormatNotices ++ (tables.filter (fun t => !(regexpMatches it t.name) &&
        !(t.createStatement == (ls.findStatement t.name).body))).map (formatNotice ls) := by
  induction tables generalizing r with
  | nil => simp [lintTables]
  | cons t tables ih =>
    cases it with
    | none =>
      by_cases he : t.createStatement = (ls.findStatement t.name).body <;>
        simp [lintTables, regexpMatches, Statement.splitTextBody, he, ih]
    | some re =>
      by_cases hm : re.matchString t.name
      · simp [lintTables, regexpMatches, hm, ih]
      · by_cases he : t.createStatement = (ls.findStatement t.name).body <;>
          simp [lintTables, regexpMatches, Statement.splitTextBody, hm, he, ih]

/-! ### Lemmas about the directory walker -/

theorem mergeWalk_eq_foldl (md : Int) (l : List Dir) (acc : Result) :
    mergeWalk l md acc = l.foldl (fun a s => a.merge (lintWalker s md)) acc := by
  induction l generalizing acc with
  | nil => simp [mergeWalk]
  | cons s rest ih => simp [mergeWalk, ih]

theorem mergeFull_eq_foldl (l : List Dir) (acc : Result) :
    mergeFull l acc = l.foldl (fun a s => a.merge (fullLint s)) acc := by
  induction l generalizing acc with
  | nil => simp [mergeFull]
  | cons s rest ih => simp [mergeFull, ih]

theorem foldl_merge_congr (f g : Dir → Result) (l : List Dir) (init : Result)
    (h : ∀ x ∈ l, f x = g x) :
    l.foldl (fun a s => a.merge (f s)) init = l.foldl (fun a s => a.merge (g s)) init := by
  induction l generalizing init with
  | nil => rfl
  | cons s rest ih =>
    simp only [List.foldl_cons]
    rw [h s (by simp)]
    exact ih _ (fun x hx => h x (by simp [hx]))

theorem lintWalker_eq_of_ok (d : Dir) (md : Int)
    (hs : d.setupError = none) (hl : d.subdirsErr = none) :
    lintWalker d md =
      if 0 < d.subdirs.length ∧ md ≤ 0 then
        addExcs (walkerLocal d) [.plainError (depthMsg d.relPath)]
      else
        mergeWalk d.subdirs (md - 1) (withBadCount d.relPath d.badCount (walkerLocal d)) := by
  unfold lintWalker
  rw [hs, hl]

theorem fullLint_eq_of_ok (d : Dir)
    (hs : d.setupError = none) (hl : d.subdirsErr = none) :
    fullLint d = mergeFull d.subdirs (withBadCount d.relPath d.badCount (walkerLocal d)) := by
  unfold fullLint
  rw [hs, hl]

theorem heightList_mem_le (s : Dir) (l : List Dir) (h : s ∈ l) :
    s.height ≤ heightList l := by
  induction l with
  | nil => cases h
  | cons a l ih =>
    rcases List.mem_cons.mp h with rfl | h2
    · simp [heightList]
    · exact le_trans (ih h2) (by simp [heightList])

theorem height_unfold (d : Dir) : d.height = 1 + heightList d.subdirs := by
  rw [Dir.height]

theorem heightList_nil : heightList [] = 0 := by
  simp [heightList]

theorem heightList_cons (d : Dir) (l : List Dir) :
    heightList (d :: l) = max (Dir.height d) (heightList l) := by
  simp [heightList]

theorem lintWalker_eq_fullLint_aux :
    ∀ (n : Nat) (d : Dir) (md : Int), sizeOf d ≤ n → (d.height : Int) ≤ md →
      lintWalker d md = fullLint d := by
  intro n
  induction n with
  | zero =>
    intro d md hsz _
    cases d with
    | mk c r ls se sub bc subs => simp at hsz
  | succ n ih =>
    intro d md hsz hh
    cases hse : d.setupError with
    | some e =>
      unfold lintWalker fullLint
      rw [hse]
    | none =>
      cases hsub : d.subdirsErr with
      | some e =>
        unfold lintWalker fullLint
        rw [hse, hsub]
      | none =>
        have h1 : 1 ≤ d.height := by rw [height_unfold]; omega
        have hcond : ¬(0 < d.subdirs.length ∧ md ≤ 0) := by
          rintro ⟨-, hmd⟩
          omega
        rw [lintWalker_eq_of_ok d md hse hsub, if_neg hcond,
          fullLint_eq_of_ok d hse hsub, mergeWalk_eq_foldl, mergeFull_eq_foldl]
        refine foldl_merge_congr _ _ _ _ fun s hsmem => ?_
        apply ih
        · have hlt := List.sizeOf_lt_of_mem hsmem
          have hlt2 : sizeOf d.subdirs < sizeOf d := by cases d; simp [Dir.subdirs]
          omega
        · have h3 : s.height ≤ heightList d.subdirs := heightList_mem_le s _ hsmem
          have h4 : d.height = 1 + heightList d.subdirs := height_unfold d
          omega

/-! ### Claim theorems -/

/-- C6: `Merge(a, b)` appends each of `b`'s five sequences after `a`'s
existing entries, preserving both orders, and applying it a second time with
the same `b` appends each entry again — no deduplication. -/
theorem merge_appends_twice_no_dedup (a b : Result) :
    (a.merge b).Errors = a.Errors ++ b.Errors ∧
    (a.merge b).Warnings = a.Warnings ++ b.Warnings ∧
    (a.merge b).FormatNotices = a.FormatNotices ++ b.FormatNotices ∧
    (a.merge b).DebugLogs = a.DebugLogs ++ b.DebugLogs ∧
    (a.merge b).Exceptions = a.Exceptions ++ b.Exceptions ∧
    ((a.merge b).merge b).Errors = a.Errors ++ b.Errors ++ b.Errors ∧
    ((a.merge b).merge b).Warnings = a.Warnings ++ b.Warnings ++ b.Warnings ∧
    ((a.merge b).merge b).FormatNotices = a.FormatNotices ++ b.FormatNotices ++ b.FormatNotices ∧
    ((a.merge b).merge b).DebugLogs = a.DebugLogs ++ b.DebugLogs ++ b.DebugLogs ∧
    ((a.merge b).merge b).Exceptions = a.Exceptions ++ b.Exceptions ++ b.Exceptions := by
  simp [Result.merge]

/-- C4: a malformed `ignore-table` or `ignore-schema` pattern makes `LintDir`
return a Result whose Exceptions hold exactly one element, a ConfigError,
with the other four buckets empty — no logical schema is processed. -/
theorem lintDir_malformed_pattern_sole_exception (d : Dir) (m : String) :
    (d.config.ignoreTable = RegexSetting.invalid m →
      LintDir d = { Exceptions := [GoError.configError m] }) ∧
    (∀ it, getRegexp d.config.ignoreTable = Except.ok it →
      d.config.ignoreSchema = RegexSetting.invalid m →
      LintDir d = { Exceptions := [GoError.configError m] }) := by
  constructor
  · intro h
    simp [LintDir, h, getRegexp, BadConfigResult]
  · intro it hit h
    unfold LintDir
    rw [hit, h]
    simp [getRegexp, BadConfigResult]

theorem lintDir_malformed_pattern_sole_exception_witness :
    LintDir c4dirA = { Exceptions := [GoError.configError "bad"] } ∧
    LintDir c4dirB = { Exceptions := [GoError.configError "worse"] } :=
  ⟨(lintDir_malformed_pattern_sole_exception c4dirA "bad").1 rfl,
   (lintDir_malformed_pattern_sole_exception c4dirB "worse").2 none rfl rfl⟩

/-- C2: when `ignore-schema` is set and some literal name in the `schema`
configuration matches it, `LintDir` appends one debug trace and returns
immediately — no logical schema of the directory is processed (even ones
that would have produced findings) and nothing else is added to the
Result. -/
theorem lintDir_ignore_schema_early_return (d : Dir) (re : Regexp) (it : Option Regexp)
    (l0 : LogicalSchema) (rest : List LogicalSchema)
    (hit : getRegexp d.config.ignoreTable = Except.ok it)
    (his : d.config.ignoreSchema = RegexSetting.valid re)
    (hmatch : d.config.schemaNames.any re.matchString = true)
    (hls : d.logicalSchemas = l0 :: rest) :
    LintDir d = { DebugLogs := [skipSchemaMsg d.relPath re] } := by
  unfold LintDir
  rw [hit, his, hls]
  simp [getRegexp, lintSchemas, hmatch]

theorem lintDir_ignore_schema_early_return_witness :
    LintDir c2dir = { DebugLogs := [skipSchemaMsg c2dir.relPath reC2] } :=
  lintDir_ignore_schema_early_return c2dir reC2 none lsProd [lsProd] rfl rfl (by decide) rfl

/-- C10: `isAllowed` is false for every value against an empty allow-list,
so `badCharsetDetector` with an empty charset allow-list and
`badEngineDetector` with an empty engine allow-list produce exactly one
finding per table of the schema. -/
theorem empty_allowlist_flags_every_table (v : String) (schema : TengoSchema)
    (ls : LogicalSchema) (opts : Options)
    (hcs : opts.AllowedCharSets = []) (hen : opts.AllowedEngines = []) :
    isAllowed v [] = false ∧
    (badCharsetDetector schema ls opts).length = schema.tables.length ∧
    (badEngineDetector schema ls opts).length = schema.tables.length := by
  refine ⟨rfl, ?_, ?_⟩ <;>
    simp [badCharsetDetector, badEngineDetector, isAllowed, hcs, hen]

theorem empty_allowlist_flags_every_table_witness :
    isAllowed "utf8mb4" [] = false ∧
    (badCharsetDetector c10schema c10ls c10opts).length = c10schema.tables.length ∧
    (badEngineDetector c10schema c10ls c10opts).length = c10schema.tables.length :=
  empty_allowlist_flags_every_table "utf8mb4" c10schema c10ls c10opts rfl rfl

/-- C5: when a rule name appears (in any letter case) in both the
lint-warning and the lint-error lists and both lists contain only registered
rule names, `OptionsForDir` succeeds and maps the lower-cased name to error
severity — the error list is processed second and overwrites the warning
entry. -/
theorem optionsForDir_error_overrides_warning (cfg : Config) (name w e : String)
    (_hw : w ∈ cfg.lintWarning) (_hwname : strToLower w = name)
    (he : e ∈ cfg.lintError) (hename : strToLower e = name)
    (hvw : ∀ v ∈ cfg.lintWarning, problemExists v = true)
    (hve : ∀ v ∈ cfg.lintError, problemExists v = true) :
    (OptionsForDir cfg).2 = none ∧
    psLookup (OptionsForDir cfg).1.ProblemSeverity name = some Severity.error := by
  unfold OptionsForDir
  rw [resolveList_all_valid _ _ _ _ hvw]
  simp only
  rw [resolveList_all_valid _ _ _ _ hve]
  refine ⟨rfl, ?_⟩
  simp only [foldl_psInsert_psLookup]
  have hany : cfg.lintError.any (fun v => strToLower v == name) = true :=
    List.any_eq_true.mpr ⟨e, he, by simp [hename]⟩
  simp [hany]

theorem optionsForDir_error_overrides_warning_witness :
    (OptionsForDir c5cfg).2 = none ∧
    psLookup (OptionsForDir c5cfg).1.ProblemSeverity "no-pk" = some Severity.error :=
  optionsForDir_error_overrides_warning c5cfg "no-pk" "No-PK" "no-pk"
    (by decide) (by decide) (by decide) (by decide) (by decide) (by decide)

/-- C7: any unregistered entry in lint-warning or lint-error makes
`OptionsForDir` return a configuration error whose message enumerates all
valid rule names (no-pk, bad-charset, bad-engine). -/
theorem optionsForDir_unknown_rule_enumerates (cfg : Config)
    (h : (∃ v ∈ cfg.lintWarning, problemExists v = false) ∨
         (∃ v ∈ cfg.lintError, problemExists v = false)) :
    ((OptionsForDir cfg).2 = some (GoError.configError (badRuleMsg "lint-warning")) ∨
     (OptionsForDir cfg).2 = some (GoError.configError (badRuleMsg "lint-error"))) ∧
    badRuleMsg "lint-warning" =
      "Option lint-warning must be a comma-separated list including these values: no-pk, bad-charset, bad-engine" ∧
    badRuleMsg "lint-error" =
      "Option lint-error must be a comma-separated list including these values: no-pk, bad-charset, bad-engine" ∧
    allProblemNames = ["no-pk", "bad-charset", "bad-engine"] := by
  refine ⟨?_, rfl, rfl, rfl⟩
  by_cases hall : ∀ v ∈ cfg.lintWarning, problemExists v = true
  · have he : ∃ v ∈ cfg.lintError, problemExists v = false := by
      rcases h with h | h
      · obtain ⟨v, hv, hbad⟩ := h
        rw [hall v hv] at hbad
        cases hbad
      · exact h
    right
    unfold OptionsForDir
    rw [resolveList_all_valid _ _ _ _ hall]
    simp only
    have h2 := resolveList_has_invalid "lint-error" Severity.error cfg.lintError
      (cfg.lintWarning.foldl (fun m v => psInsert m (strToLower v) Severity.warning) []) he
    rcases hR : resolveList "lint-error" Severity.error cfg.lintError
        (cfg.lintWarning.foldl (fun m v => psInsert m (strToLower v) Severity.warning) []) with ⟨m2, e2⟩
    rw [hR] at h2
    simp at h2
    simp [h2]
  · left
    have hw : ∃ v ∈ cfg.lintWarning, problemExists v = false := by
      push_neg at hall
      obtain ⟨v, hv, hbad⟩ := hall
      exact ⟨v, hv, by simpa using hbad⟩
    unfold OptionsForDir
    have h2 := resolveList_has_invalid "lint-warning" Severity.warning cfg.lintWarning [] hw
    rcases hR : resolveList "lint-warning" Severity.warning cfg.lintWarning [] with ⟨m1, e1⟩
    rw [hR] at h2
    simp at h2
    simp [h2]

theorem optionsForDir_unknown_rule_enumerates_witness :
    ((OptionsForDir c7cfg).2 = some (GoError.configError (badRuleMsg "lint-warning")) ∨
     (OptionsForDir c7cfg).2 = some (GoError.configError (badRuleMsg "lint-error"))) ∧
    badRuleMsg "lint-warning" =
      "Option lint-warning must be a comma-separated list including these values: no-pk, bad-charset, bad-engine" ∧
    badRuleMsg "lint-error" =
      "Option lint-error must be a comma-separated list including these values: no-pk, bad-charset, bad-engine" ∧
    allProblemNames = ["no-pk", "bad-charset", "bad-engine"] :=
  optionsForDir_unknown_rule_enumerates c7cfg (Or.inl ⟨"nonsense", by decide, by decide⟩)

/-- C9: when `OptionsForDir` fails on an invalid lint-error entry, the
Options value returned alongside the error still carries the parsed
charset/engine allow-lists and every severity entry resolved before the
failing one — in particular all lint-warning entries are applied. -/
theorem optionsForDir_partial_on_failure (cfg : Config) (pre rest : List String) (bad : String)
    (hvw : ∀ v ∈ cfg.lintWarning, problemExists v = true)
    (hsplit : cfg.lintError = pre ++ bad :: rest)
    (hpre : ∀ v ∈ pre, problemExists v = true)
    (hbad : problemExists bad = false) :
    (OptionsForDir cfg).2 = some (GoError.configError (badRuleMsg "lint-error")) ∧
    (OptionsForDir cfg).1.AllowedCharSets = cfg.lintAllowedCharset ∧
    (OptionsForDir cfg).1.AllowedEngines = cfg.lintAllowedEngine ∧
    (OptionsForDir cfg).1.ProblemSeverity =
      pre.foldl (fun m v => psInsert m (strToLower v) Severity.error)
        (cfg.lintWarning.foldl (fun m v => psInsert m (strToLower v) Severity.warning) []) ∧
    (∀ w ∈ cfg.lintWarning,
      (psLookup (OptionsForDir cfg).1.ProblemSeverity (strToLower w)).isSome = true) := by
  unfold OptionsForDir
  rw [resolveList_all_valid _ _ _ _ hvw]
  simp only
  rw [hsplit, resolveList_first_invalid _ _ _ _ _ _ hpre hbad]
  refine ⟨rfl, trivial, trivial, rfl, ?_⟩
  intro w hw
  simp only [foldl_psInsert_psLookup]
  have hany : cfg.lintWarning.any (fun v => strToLower v == strToLower w) = true :=
    List.any_eq_true.mpr ⟨w, hw, by simp⟩
  by_cases hp : pre.any (fun v => strToLower v == strToLower w) <;> simp [hp, hany]

theorem optionsForDir_partial_on_failure_witness :
    (OptionsForDir c9cfg).2 = some (GoError.configError (badRuleMsg "lint-error")) ∧
    (OptionsForDir c9cfg).1.AllowedCharSets = c9cfg.lintAllowedCharset ∧
    (OptionsForDir c9cfg).1.AllowedEngines = c9cfg.lintAllowedEngine ∧
    (OptionsForDir c9cfg).1.ProblemSeverity =
      ["no-pk"].foldl (fun m v => psInsert m (strToLower v) Severity.error)
        (c9cfg.lintWarning.foldl (fun m v => psInsert m (strToLower v) Severity.warning) []) ∧
    (∀ w ∈ c9cfg.lintWarning,
      (psLookup (OptionsForDir c9cfg).1.ProblemSeverity (strToLower w)).isSome = true) :=
  optionsForDir_partial_on_failure c9cfg ["no-pk"] [] "oops"
    (by decide) rfl (by decide) (by decide)

/-- C1 (evaluation at the failing input): the configuration maps no-pk to
error severity and the registered no-pk detector flags the schema's
primary-key-less table, yet `LintDir` — which never resolves `Options` and
never invokes any registered detector — returns a Result with empty Errors
and Warnings (indeed an entirely empty Result) on that directory. -/
theorem lintDir_never_invokes_detectors :
    psLookup (OptionsForDir c1cfg).1.ProblemSeverity "no-pk" = some Severity.error ∧
    (OptionsForDir c1cfg).2 = none ∧
    noPKDetector c1schema c1ls (OptionsForDir c1cfg).1 =
      [{ statement := c1stmt, lineOffset := 0, summary := "No primary key",
         message := "Table users does not define a PRIMARY KEY" }] ∧
    LintDir c1dir = {} := by
  decide

/-- C3 counterexample: a table whose declared statement carries a trailing
delimiter suffix produces exactly one format notice, but the notice's
message is the canonical text followed by the declared suffix, not the
canonical text itself. -/
theorem lintDir_format_notice_message_counterexample :
    (LintDir c3dir).FormatNotices.map Finding.message = ["CREATE TABLE t (a int2);\n"] ∧
    (LintDir c3dir).FormatNotices.map Finding.message ≠ ["CREATE TABLE t (a int2)"] ∧
    c3table.createStatement = "CREATE TABLE t (a int2)" := by
  decide

/-- C3 (amended): for every table of the concrete schema not matching the
table-ignore pattern, `LintDir` appends exactly one format notice when the
canonical statement differs from the declared body — the notice's message is
the canonical text followed by the declared statement's suffix — and no
notice when they are equal; such a textual difference alone never produces a
rule error or warning. -/
theorem lintDir_format_notices_amended (d : Dir) (it : Option Regexp) (ls : LogicalSchema)
    (schema : TengoSchema)
    (hIT : getRegexp d.config.ignoreTable = Except.ok it)
    (hIS : d.config.ignoreSchema = RegexSetting.unset)
    (hls : d.logicalSchemas = [ls])
    (hexec : ls.execResult = ExecOutcome.ok schema []) :
    (LintDir d).FormatNotices =
      (schema.tables.filter (fun t => !(regexpMatches it t.name) &&
        !(t.createStatement == (ls.findStatement t.name).body))).map (formatNotice ls) ∧
    (∀ f ∈ (LintDir d).FormatNotices, ∃ t, t ∈ schema.tables ∧
      f.message = t.createStatement ++ (ls.findStatement t.name).suffix) ∧
    (LintDir d).Errors = [] ∧
    (LintDir d).Warnings = [] := by
  have hld : LintDir d = lintTables it ls schema.tables {} := by
    unfold LintDir
    rw [hIT, hIS, hls]
    simp [getRegexp, lintSchemas, lintOneSchema, hexec, lintStmtErrors]
  obtain ⟨he, hw, _, hf⟩ := lintTables_parts it ls schema.tables {}
  refine ⟨?_, ?_, ?_, ?_⟩
  · rw [hld, hf]; simp
  · intro f hfmem
    rw [hld, hf] at hfmem
    simp only [List.nil_append] at hfmem
    obtain ⟨t, htmem, rfl⟩ := List.mem_map.mp hfmem
    exact ⟨t, List.mem_of_mem_filter htmem, rfl⟩
  · rw [hld, he]
  · rw [hld, hw]

theorem lintDir_format_notices_amended_witness :
    (LintDir c3wdir).FormatNotices =
      (c3wschema.tables.filter (fun t => !(regexpMatches none t.name) &&
        !(t.createStatement == (c3wls.findStatement t.name).body))).map (formatNotice c3wls) ∧
    (∀ f ∈ (LintDir c3wdir).FormatNotices, ∃ t, t ∈ c3wschema.tables ∧
      f.message = t.createStatement ++ (c3wls.findStatement t.name).suffix) ∧
    (LintDir c3wdir).Errors = [] ∧
    (LintDir c3wdir).Warnings = [] :=
  lintDir_format_notices_amended c3wdir none c3wls c3wschema rfl rfl rfl rfl

/-- C8: with setup and subdirectory listing succeeding, the walker always
produces the current directory's executor result first, regardless of depth:
when subdirectories exist and `maxDepth <= 0` it appends exactly one
depth-limit exception and visits no subdirectory; otherwise it recurses into
each subdirectory with `maxDepth - 1`, merging child results in listing
order; and when the tree height is within the depth budget (e.g. 3 levels
with `maxDepth = 5`) the walk equals the depth-unbounded walk of the whole
tree. -/
theorem lintWalker_depth_and_order (d : Dir) (md : Int)
    (hs : d.setupError = none) (hl : d.subdirsErr = none) :
    (0 < d.subdirs.length → md ≤ 0 →
      lintWalker d md = addExcs (walkerLocal d) [GoError.plainError (depthMsg d.relPath)]) ∧
    (¬(0 < d.subdirs.length ∧ md ≤ 0) →
      lintWalker d md = d.subdirs.foldl (fun a s => a.merge (lintWalker s (md - 1)))
        (withBadCount d.relPath d.badCount (walkerLocal d))) ∧
    ((d.height : Int) ≤ md → lintWalker d md = fullLint d) := by
  refine ⟨?_, ?_, ?_⟩
  · intro hlen hmd
    rw [lintWalker_eq_of_ok d md hs hl, if_pos ⟨hlen, hmd⟩]
  · intro hcond
    rw [lintWalker_eq_of_ok d md hs hl, if_neg hcond, mergeWalk_eq_foldl]
  · intro hh
    exact lintWalker_eq_fullLint_aux (sizeOf d) d md (le_refl _) hh

theorem lintWalker_depth_and_order_witness :
    lintWalker c8tree 0 =
      addExcs (walkerLocal c8tree) [GoError.plainError (depthMsg c8tree.relPath)] ∧
    lintWalker c8tree 5 = fullLint c8tree :=
  ⟨(lintWalker_depth_and_order c8tree 0 rfl rfl).1 (by decide) (by decide),
   (lintWalker_depth_and_order c8tree 5 rfl rfl).2.2 (by
     have hl1 : Dir.height c8leaf1 = 1 := by
       rw [height_unfold, show c8leaf1.subdirs = [] from rfl, heightList_nil]
     have hl2 : Dir.height c8leaf2 = 1 := by
       rw [height_unfold, show c8leaf2.subdirs = [] from rfl, heightList_nil]
     have hm : Dir.height c8mid = 2 := by
       rw [height_unfold, show c8mid.subdirs = [c8leaf1] from rfl, heightList_cons,
         heightList_nil, hl1]
       decide
     have ht : Dir.height c8tree = 3 := by
       rw [height_unfold, show c8tree.subdirs = [c8mid, c8leaf2] from rfl, heightList_cons,
         heightList_cons, heightList_nil, hm, hl2]
       decide
     rw [ht]
     norm_num)⟩

end Skeema
